import Mathlib

/-!
Verification of the QR-code label-composition routine of `src/app.py`
(Flask AdminPortal backend).

The file shallowly embeds the image-composition logic of the two request
handlers `generate_qr` (app.py lines 810-978) and `create_site`
(app.py lines 1307-1505):

* Python strings are Lean `String`s; `str.split()`, `" ".join(...)` and
  `str.strip()` are modelled by `splitWords`, `joinSpace` and `pyStrip`
  below, at the character-list level with Python's semantics
  (split on runs of whitespace dropping empty chunks, strip whitespace
  at both ends).
* Pixel quantities are `Int` (Python's unbounded integers); Python's
  floor division `//` is `Int.fdiv`.
* The external collaborators (PIL text measurement, the qrcode encoder,
  font loading) are parameters of the model, collected in `Env`:
  `textbbox` models `draw.textbbox((0,0), s, font=font)`, `encode`
  models building the QR symbol (returning its pixel size, or an
  exception on capacity overflow), `fontLoads` models
  `ImageFont.truetype(name, 16)` per candidate name.
* The produced raster image is modelled by its dimensions together with
  the ordered list of drawing operations performed on it (`ComposedImage`):
  pasting the QR symbol and drawing text lines at computed positions.
  Two images with the same dimensions and the same operation list have
  identical pixel content.
-/

/-- A font handle: either a truetype font successfully loaded by name
(`ImageFont.truetype(name, 16)`), or PIL's guaranteed built-in default
(`ImageFont.load_default()`). -/
inductive Font where
  | truetype (name : String) : Font
  | builtinDefault : Font
deriving DecidableEq

/-- Result of `draw.textbbox((0, 0), text, font=font)`: a 4-tuple
(x0, y0, x1, y1) of pixel coordinates. -/
structure BBox where
  x0 : Int
  y0 : Int
  x1 : Int
  y1 : Int
deriving DecidableEq

/-- Horizontal extent `bbox[2] - bbox[0]` of a text bounding box. -/
def BBox.width (b : BBox) : Int := b.x1 - b.x0

/-- Vertical extent `bbox[3] - bbox[1]` of a text bounding box. -/
def BBox.height (b : BBox) : Int := b.y1 - b.y0

/-- The external collaborators of the composition routine. -/
structure Env where
  /-- Models `draw.textbbox((0, 0), s, font=f)`. -/
  textbbox : Font → String → BBox
  /-- Models building the QR symbol for a payload with
  `qrcode.QRCode(version=1, error_correction=L, box_size=10, border=4)`,
  `add_data`, `make(fit=True)`, `make_image(...)`, `.convert("RGB")`;
  the result is the symbol's pixel size `(qr_w, qr_h)`, and `.error ()`
  models an exception (e.g. payload exceeds symbol capacity). -/
  encode : String → Except Unit (Int × Int)
  /-- Models `ImageFont.truetype(name, 16)` for each candidate name:
  `.ok f` when the font loads, `.error ()` when it raises. -/
  fontLoads : String → Except Unit Font

/-- The space character, separator used by `" ".join`. -/
def spaceChar : Char := ' '

/-- Models Python's `str.strip()` at the character level: drop whitespace
from both ends. -/
def stripChars (l : List Char) : List Char :=
  ((l.dropWhile Char.isWhitespace).reverse.dropWhile Char.isWhitespace).reverse

/-- Models Python's `str.strip()`. -/
def pyStrip (s : String) : String := String.mk (stripChars s.toList)

/-- Helper for `splitWords`: scan the character list, accumulating the
current chunk in reverse; whitespace ends a chunk, empty chunks are
dropped (Python `str.split()` with no argument). -/
def splitWordsAux : List Char → List Char → List (List Char)
  | [], cur => if cur = [] then [] else [cur.reverse]
  | c :: cs, cur =>
    if c.isWhitespace then
      if cur = [] then splitWordsAux cs [] else cur.reverse :: splitWordsAux cs []
    else
      splitWordsAux cs (c :: cur)

/-- Models Python's `text.split()`: split on runs of whitespace,
dropping empty chunks. -/
def splitWords (s : String) : List String :=
  (splitWordsAux s.toList []).map String.mk

/-- Models Python's `" ".join(words)`. -/
def joinSpace : List String → String
  | [] => ""
  | [w] => w
  | w :: ws => w ++ String.mk [spaceChar] ++ joinSpace ws

/-- The greedy word-packing loop of `wrap_text` (app.py lines 877-890):
`lines` and `cur` are the accumulators of the Python `for` loop, the
third list is the remaining words.  A word joins the current line when
the line extended with it still measures `≤ max_width`, or when the
current line is empty (so an over-long single word is placed alone);
otherwise the current line is flushed and a fresh line starts. -/
def wrapLoop (widthF : String → Int) (maxWidth : Int)
    (lines cur : List String) : List String → List String
  | [] => if cur = [] then lines else lines ++ [joinSpace cur]
  | w :: ws =>
    let test := pyStrip (joinSpace (cur ++ [w]))
    if widthF test ≤ maxWidth ∨ cur = [] then
      wrapLoop widthF maxWidth lines (cur ++ [w]) ws
    else
      wrapLoop widthF maxWidth (lines ++ [joinSpace cur]) [w] ws

/-- The local `wrap_text(draw, text, max_width, font)` defined inside
`generate_qr` (app.py lines 874-890).  The drawing context and font only
enter through the measurement `draw.textbbox((0,0), test, font=font)[2] -
[0]`, abstracted as `widthF`.  Empty text yields no lines. -/
def wrap_text (widthF : String → Int) (text : String) (maxWidth : Int) :
    List String :=
  if text.isEmpty then [] else wrapLoop widthF maxWidth [] [] (splitWords text)

/-- The greedy word-packing loop of the `wrap_text` copy defined inside
`create_site` (app.py lines 1383-1395); textually identical logic to
`wrapLoop`, embedded separately so the agreement of the two copies can
be stated. -/
def wrapLoopCS (widthF : String → Int) (maxWidth : Int)
    (lines cur : List String) : List String → List String
  | [] => if cur = [] then lines else lines ++ [joinSpace cur]
  | w :: ws =>
    let test := pyStrip (joinSpace (cur ++ [w]))
    if widthF test ≤ maxWidth ∨ cur = [] then
      wrapLoopCS widthF maxWidth lines (cur ++ [w]) ws
    else
      wrapLoopCS widthF maxWidth (lines ++ [joinSpace cur]) [w] ws

/-- The local `wrap_text(draw, text, max_width, font)` defined inside
`create_site` (app.py lines 1380-1396); textually identical logic to the
copy inside `generate_qr`, embedded separately so their agreement can be
stated. -/
def wrap_text_cs (widthF : String → Int) (text : String) (maxWidth : Int) :
    List String :=
  if text.isEmpty then [] else wrapLoopCS widthF maxWidth [] [] (splitWords text)

/-- A drawing operation performed on the output canvas, in order:
`pasteQR payload x y` models `out.paste(qr_img, (x, y))` for the symbol
encoding `payload`; `text x y s` models
`draw.text((x, y), s, fill="black", font=font)` (fill colour and font
are the same for every call and carry no per-op information). -/
inductive DrawOp where
  | pasteQR (payload : String) (x y : Int) : DrawOp
  | text (x y : Int) (s : String) : DrawOp
deriving DecidableEq

/-- The composed output raster: its pixel dimensions together with the
ordered list of drawing operations performed on the white canvas.  Equal
dimensions and equal operation lists give identical pixel content. -/
structure ComposedImage where
  w : Int
  h : Int
  ops : List DrawOp
deriving DecidableEq

deriving instance DecidableEq for Except

/-- The ordered font candidate list tried by both handlers
(app.py lines 862 and 1368). -/
def fontCandidates : List String := ["DejaVuSans.ttf", "Arial.ttf", "Arial"]

/-- Helper for `resolveFont`: try candidates in order, absorbing every
load failure; fall back to `ImageFont.load_default()` when the list is
exhausted (app.py lines 860-871 and 1366-1377). -/
def resolveFontAux (loads : String → Except Unit Font) : List String → Font
  | [] => Font.builtinDefault
  | c :: rest =>
    match loads c with
    | .ok f => f
    | .error _ => resolveFontAux loads rest

/-- Font resolution of both handlers: try `fontCandidates` in order with
`ImageFont.truetype(name, 16)`, catching every exception; if none loads,
use `ImageFont.load_default()`. -/
def resolveFont (loads : String → Except Unit Font) : Font :=
  resolveFontAux loads fontCandidates

/-- The `draw_centered_lines` / `draw_centered` loop of both handlers
(app.py lines 928-935 and 1430-1437): for each line, measure its width,
place it at `x = max(10, (qr_w - w) // 2)` and the current cursor `y`,
then advance the cursor by `line height + inter-line gap`.  Returns the
accumulated drawing operations and the final cursor. -/
def drawCenteredLines (widthF : String → Int) (qrW lineHeight gap : Int) :
    List DrawOp × Int → List String → List DrawOp × Int
  | acc, [] => acc
  | (ops, cursorY), line :: rest =>
    let w := widthF line
    let x := max 10 ((qrW - w).fdiv 2)
    drawCenteredLines widthF qrW lineHeight gap
      (ops ++ [DrawOp.text x cursorY line], cursorY + lineHeight + gap) rest

/-- The layout-and-composition block of `generate_qr` (app.py lines
892-948), run after validation and after the symbol for the (stripped)
`resource_url` has been built with pixel size `(qrW, qrH)`:
resolve the font, wrap both caption entries against `qr_w - 20`,
measure line height from the bounding box of the probe string `"Ag"`,
compute the caption block height (per line: `line_height` only, app.py
lines 909-913), allocate a canvas of height `qr_h + max(60,
text_height)`, paste the symbol at the origin and draw the wrapped
lines centered. -/
def gqLayout (env : Env) (site_name site_location resource_url : String)
    (qrW qrH : Int) : ComposedImage :=
  let font := resolveFont env.fontLoads
  let widthF := fun s => (env.textbbox font s).width
  let text_max_width := qrW - 20
  let name_lines := wrap_text widthF site_name text_max_width
  let loc_lines := wrap_text widthF site_location text_max_width
  let line_height := (env.textbbox font "Ag").y1 - (env.textbbox font "Ag").y0
  let padding_top : Int := 10
  let gap_between : Int := 6
  let block_gap : Int := if name_lines ≠ [] ∧ loc_lines ≠ [] then 12 else 0
  let text_height := padding_top +
    (name_lines.length : Int) * line_height +
    (if name_lines ≠ [] ∧ loc_lines ≠ [] then block_gap else 0) +
    (loc_lines.length : Int) * line_height +
    10
  let new_h := qrH + max 60 text_height
  let cursor0 := qrH + padding_top
  let r1 := if name_lines ≠ [] then
      drawCenteredLines widthF qrW line_height gap_between ([], cursor0) name_lines
    else ([], cursor0)
  let cursor1 := r1.2 +
    (if name_lines ≠ [] ∧ loc_lines ≠ [] then
      (if block_gap > gap_between then block_gap - gap_between else 0) else 0)
  let r2 := if loc_lines ≠ [] then
      drawCenteredLines widthF qrW line_height gap_between ([], cursor1) loc_lines
    else ([], cursor1)
  { w := qrW, h := new_h,
    ops := DrawOp.pasteQR resource_url 0 0 :: (r1.1 ++ r2.1) }

/-- The error outcomes of the `generate_qr` handler that concern the
composition routine: the two 400 validation responses (app.py lines
828-833) and the catch-all 500 for exceptions raised inside the `try`
block, e.g. a payload over the symbol capacity (app.py lines 975-978). -/
inductive ComposeError where
  | siteNameRequired : ComposeError
  | resourceUrlRequired : ComposeError
  | internalError : ComposeError
deriving DecidableEq

/-- The `generate_qr` handler (app.py lines 810-978) restricted to the
composition pipeline: strip the three request fields, reject a missing
site name or resource URL with a 400, build the QR symbol for the
payload (any encoder exception surfaces as the catch-all 500), lay out
the captioned image, and pair it with the generated identifier
`site_{uuid4().hex[:8]}` (the random hex string is the `uuidHex`
parameter).  Credential checking, the filesystem write and the HTTP
response envelope are external collaborators outside the composition
scope. -/
def generate_qr (env : Env) (site_name site_location resource_url : String)
    (uuidHex : String) : Except ComposeError (ComposedImage × String) :=
  let site_name := pyStrip site_name
  let site_location := pyStrip site_location
  let resource_url := pyStrip resource_url
  if site_name = "" then .error .siteNameRequired
  else if resource_url = "" then .error .resourceUrlRequired
  else
    match env.encode resource_url with
    | .error _ => .error .internalError
    | .ok (qrW, qrH) =>
      .ok (gqLayout env site_name site_location resource_url qrW qrH,
           "site_" ++ uuidHex.take 8)

/-- The spec's `compose(payload, caption_lines)` interface mapped onto
the `generate_qr` handler: the first caption entry is the site name, the
second the site location, entries past the second are ignored and
missing entries are the empty string (the handler reads
`data.get(...) or ''`). -/
def composeWithCaptions (env : Env) (payload : String)
    (captions : List String) (uuidHex : String) :
    Except ComposeError (ComposedImage × String) :=
  generate_qr env (captions.getD 0 "") (captions.getD 1 "") payload uuidHex

/-- The layout-and-composition block of `create_site` (app.py lines
1398-1444), run after validation and symbol construction; it differs
from `gqLayout` in the line-height fallback `(bbox[3]-bbox[1]) or 16`
(app.py lines 1405-1407) and in counting `lh + gap` per wrapped line in
the caption block height (app.py lines 1413-1417). -/
def csLayout (env : Env) (site_name site_location folder_link : String)
    (qrW qrH : Int) : ComposedImage :=
  let font := resolveFont env.fontLoads
  let widthF := fun s => (env.textbbox font s).width
  let text_max_w := qrW - 20
  let name_lines := wrap_text_cs widthF site_name text_max_w
  let loc_lines := wrap_text_cs widthF site_location text_max_w
  let lh :=
    let v := (env.textbbox font "Ag").y1 - (env.textbbox font "Ag").y0
    if v = 0 then 16 else v
  let pad_top : Int := 10
  let gap : Int := 6
  let block_gap : Int := if name_lines ≠ [] ∧ loc_lines ≠ [] then 12 else 0
  let text_h := pad_top +
    (name_lines.length : Int) * (lh + gap) +
    (if name_lines ≠ [] ∧ loc_lines ≠ [] then block_gap else 0) +
    (loc_lines.length : Int) * (lh + gap) +
    10
  let new_h := qrH + max 60 text_h
  let cursor0 := qrH + pad_top
  let r1 := if name_lines ≠ [] then
      drawCenteredLines widthF qrW lh gap ([], cursor0) name_lines
    else ([], cursor0)
  let cursor1 := r1.2 +
    (if name_lines ≠ [] ∧ loc_lines ≠ [] then max 0 (block_gap - gap) else 0)
  let r2 := if loc_lines ≠ [] then
      drawCenteredLines widthF qrW lh gap ([], cursor1) loc_lines
    else ([], cursor1)
  { w := qrW, h := new_h,
    ops := DrawOp.pasteQR folder_link 0 0 :: (r1.1 ++ r2.1) }

/-- The error outcomes of the `create_site` handler that concern the
composition routine: the three 400 validation responses (app.py lines
1336-1341) and the catch-all 500. -/
inductive CSError where
  | siteNameRequired : CSError
  | siteLocationRequired : CSError
  | folderLinkRequired : CSError
  | internalError : CSError
deriving DecidableEq

/-- The `create_site` handler (app.py lines 1307-1505) restricted to its
composition pipeline: strip the request fields, reject a missing name,
location or folder link with a 400, build the QR symbol for the folder
link, lay out the captioned image, and pair it with the generated
identifier `qr_{uuid4().hex[:8]}`.  The Drive lookup, database insert
and event logging that surround it are external collaborators outside
the composition scope. -/
def create_site_compose (env : Env)
    (site_name site_location folder_link : String) (uuidHex : String) :
    Except CSError (ComposedImage × String) :=
  let site_name := pyStrip site_name
  let site_location := pyStrip site_location
  let folder_link := pyStrip folder_link
  if site_name = "" then .error .siteNameRequired
  else if site_location = "" then .error .siteLocationRequired
  else if folder_link = "" then .error .folderLinkRequired
  else
    match env.encode folder_link with
    | .error _ => .error .internalError
    | .ok (qrW, qrH) =>
      .ok (csLayout env site_name site_location folder_link qrW qrH,
           "qr_" ++ uuidHex.take 8)

/-- A concrete environment used to evaluate the model on explicit
inputs: every glyph is 7px wide and 16px tall (`textbbox` returns
`(0, 0, 7*len, 16)`), every payload encodes to a 290x290 symbol
(the actual size of a version-1 QR symbol at box size 10 and border 4),
and no truetype font is available (all candidates fail to load). -/
def envTest : Env :=
  { textbbox := fun _ s => ⟨0, 0, 7 * (s.length : Int), 16⟩,
    encode := fun _ => .ok (290, 290),
    fontLoads := fun _ => .error () }

/-- Like `envTest` but with 60px-tall glyphs, so that the caption block
height exceeds the 60px floor and the height formula becomes visible in
the final canvas height. -/
def envCex : Env :=
  { textbbox := fun _ s => ⟨0, 0, 7 * (s.length : Int), 60⟩,
    encode := fun _ => .ok (290, 290),
    fontLoads := fun _ => .error () }

/-- A font-loading environment in which every truetype candidate fails. -/
def noFonts : String → Except Unit Font := fun _ => .error ()

/-- The caption block height exactly as the spec's step 6 words it:
`top padding + n1 × (line height + inter-line gap) + (inter-block gap,
only if both entries non-empty) + n2 × (line height + inter-line gap) +
bottom padding`.  Stated from the spec's words (not from the source) so
that the source's computations can be compared against it. -/
def specCaptionBlockHeight (padTop lineHeight gap blockGap padBottom : Int)
    (n1 n2 : Nat) (both : Prop) [Decidable both] : Int :=
  padTop + (n1 : Int) * (lineHeight + gap) +
    (if both then blockGap else 0) +
    (n2 : Int) * (lineHeight + gap) + padBottom

/-- Closed form of `drawCenteredLines` starting from an empty operation
list: the k-th line (0-based) of the block is drawn at
`x = max 10 ((qrW - width) // 2)` and `y = y0 + k * (lineHeight + gap)`. -/
def centeredOps (widthF : String → Int) (qrW lineHeight gap y0 : Int) :
    List String → List DrawOp
  | [] => []
  | line :: rest =>
    DrawOp.text (max 10 ((qrW - widthF line).fdiv 2)) y0 line ::
      centeredOps widthF qrW lineHeight gap (y0 + lineHeight + gap) rest

/-- A well-formed word: a nonempty string containing no whitespace —
the shape of every chunk produced by `splitWords`. -/
def WfWord (w : String) : Prop :=
  w.data ≠ [] ∧ ∀ c ∈ w.data, c.isWhitespace = false

/-! ## Theorems -/

/-- The two greedy loops agree word-for-word. -/
theorem wrapLoop_eq_wrapLoopCS (widthF : String → Int) (maxWidth : Int) :
    ∀ (ws lines cur : List String),
      wrapLoop widthF maxWidth lines cur ws = wrapLoopCS widthF maxWidth lines cur ws
  | [], _, _ => rfl
  | w :: ws, lines, cur => by
    rw [wrapLoop, wrapLoopCS]
    split_ifs with h
    · exact wrapLoop_eq_wrapLoopCS widthF maxWidth ws lines (cur ++ [w])
    · exact wrapLoop_eq_wrapLoopCS widthF maxWidth ws (lines ++ [joinSpace cur]) [w]

/-- C10: the two locally defined word-wrap routines — the copy inside
`generate_qr` and the copy inside `create_site` — are extensionally
equal: for every measurement function, text and maximum width both
return the same list of lines. -/
theorem wrap_text_copies_agree (widthF : String → Int) (text : String) (maxWidth : Int) :
    wrap_text widthF text maxWidth = wrap_text_cs widthF text maxWidth := by
  unfold wrap_text wrap_text_cs
  split_ifs with h
  · rfl
  · exact wrapLoop_eq_wrapLoopCS widthF maxWidth (splitWords text) [] []

/-- Resolution over an arbitrary candidate list: the result is either a
successfully loaded candidate or the built-in default, and when every
candidate fails the result is the built-in default. -/
theorem resolveFontAux_spec (loads : String → Except Unit Font) :
    ∀ cs : List String,
      (resolveFontAux loads cs = Font.builtinDefault ∨
        ∃ c ∈ cs, loads c = .ok (resolveFontAux loads cs)) ∧
      ((∀ c ∈ cs, loads c = .error ()) → resolveFontAux loads cs = Font.builtinDefault)
  | [] => ⟨Or.inl rfl, fun _ => rfl⟩
  | c :: rest => by
    have ih := resolveFontAux_spec loads rest
    have hok : ∀ f, loads c = .ok f → resolveFontAux loads (c :: rest) = f := by
      intro f hf
      simp only [resolveFontAux, hf]
    have herr : loads c = .error () →
        resolveFontAux loads (c :: rest) = resolveFontAux loads rest := by
      intro hf
      simp only [resolveFontAux, hf]
    constructor
    · cases h : loads c with
      | ok f => exact Or.inr ⟨c, List.mem_cons_self c rest, by rw [hok f h, h]⟩
      | error e =>
        have he : loads c = .error () := by cases e; exact h
        rcases ih.1 with h1 | ⟨d, hd, hd2⟩
        · exact Or.inl (by rw [herr he]; exact h1)
        · exact Or.inr ⟨d, List.mem_cons_of_mem c hd, by rw [herr he]; exact hd2⟩
    · intro hall
      rw [herr (hall c (List.mem_cons_self c rest))]
      exact ih.2 fun d hd => hall d (List.mem_cons_of_mem c hd)

/-- C6: font resolution never surfaces an error: for every environment
(every pattern of candidate load failures) the resolution tries the
ordered candidate list, absorbs every failure, and always yields a
usable font — a successfully loaded candidate, or the guaranteed
built-in default when all candidates fail. -/
theorem font_resolution_absorbs_failures (loads : String → Except Unit Font) :
    (resolveFont loads = Font.builtinDefault ∨
      ∃ c ∈ fontCandidates, loads c = .ok (resolveFont loads)) ∧
    ((∀ c ∈ fontCandidates, loads c = .error ()) →
      resolveFont loads = Font.builtinDefault) :=
  resolveFontAux_spec loads fontCandidates

/-- Witness for C6: in an environment where every candidate fails to
load, resolution yields the built-in default font. -/
theorem font_resolution_absorbs_failures_witness :
    (∀ c ∈ fontCandidates, noFonts c = Except.error ()) ∧
    resolveFont noFonts = Font.builtinDefault :=
  ⟨fun _ _ => rfl,
   (font_resolution_absorbs_failures noFonts).2 fun _ _ => rfl⟩

/-- C5: composing with an empty payload string always fails — an error
result is returned to the caller and no image is produced; in
particular `compose("", ["a"])` yields the handler's payload-missing
rejection (the "payload empty" arm of the spec's `EncodingError`). -/
theorem empty_payload_rejected (env : Env) (captions : List String) (u : String) :
    (∃ e, composeWithCaptions env "" captions u = .error e) ∧
    composeWithCaptions env "" ["a"] u = .error .resourceUrlRequired := by
  constructor
  · by_cases h : pyStrip (captions.getD 0 "") = ""
    · refine ⟨.siteNameRequired, ?_⟩
      simp only [composeWithCaptions, generate_qr]
      rw [if_pos h]
    · refine ⟨.resourceUrlRequired, ?_⟩
      simp only [composeWithCaptions, generate_qr]
      rw [if_neg h, if_pos (show pyStrip "" = "" from rfl)]
  · rfl

/-- C7: two runs of the compose operation with identical payload and
identical caption fields produce identical results up to the random
identifier: the image parts (dimensions and drawn content) are equal,
and on success each run's identifier is `site_` followed by the first 8
characters of its own random hex string — the only place the randomness
enters. -/
theorem compose_deterministic (env : Env) (sn sl r u₁ u₂ : String) :
    (generate_qr env sn sl r u₁).map Prod.fst
      = (generate_qr env sn sl r u₂).map Prod.fst ∧
    (∀ img₁ id₁ img₂ id₂,
      generate_qr env sn sl r u₁ = .ok (img₁, id₁) →
      generate_qr env sn sl r u₂ = .ok (img₂, id₂) →
      img₁ = img₂ ∧ id₁ = "site_" ++ u₁.take 8 ∧ id₂ = "site_" ++ u₂.take 8) := by
  constructor
  · simp only [generate_qr]
    split_ifs with h1 h2
    · rfl
    · rfl
    · cases henc : env.encode (pyStrip r) with
      | error e => rfl
      | ok p =>
        obtain ⟨qw, qh⟩ := p
        simp only [Except.map]
  · intro img₁ id₁ img₂ id₂ hrun₁ hrun₂
    simp only [generate_qr] at hrun₁ hrun₂
    split_ifs at hrun₁ hrun₂ with h1 h2
    cases henc : env.encode (pyStrip r) with
    | error e =>
      rw [henc] at hrun₁
      cases hrun₁
    | ok p =>
      obtain ⟨qw, qh⟩ := p
      rw [henc] at hrun₁ hrun₂
      cases hrun₁
      cases hrun₂
      exact ⟨rfl, rfl, rfl⟩

/-- Witness for C7: a concrete successful run pair; the two runs yield
the same image and identifiers derived from their own hex strings. -/
theorem compose_deterministic_witness :
    generate_qr envTest "A" "" "https://x" "11112222"
      = .ok (gqLayout envTest "A" "" "https://x" 290 290, "site_11112222") ∧
    generate_qr envTest "A" "" "https://x" "33334444"
      = .ok (gqLayout envTest "A" "" "https://x" 290 290, "site_33334444") ∧
    (gqLayout envTest "A" "" "https://x" 290 290
        = gqLayout envTest "A" "" "https://x" 290 290 ∧
      "site_11112222" = "site_" ++ String.take "11112222" 8 ∧
      "site_33334444" = "site_" ++ String.take "33334444" 8) :=
  ⟨by decide, by decide,
   (compose_deterministic envTest "A" "" "https://x" "11112222" "33334444").2
     (gqLayout envTest "A" "" "https://x" 290 290) "site_11112222"
     (gqLayout envTest "A" "" "https://x" 290 290) "site_33334444"
     (by decide) (by decide)⟩

/-- Counterexample to C4 as stated: composing a payload with the
caption pair `["", ""]` does not produce an image at all — the handler
rejects the request because the (empty) site name is a required field. -/
theorem compose_blank_pair_no_image_cex :
    composeWithCaptions envTest "https://x" ["", ""] "u"
      = .error .siteNameRequired := rfl

/-- C4 (amended): composing with the caption pair `["", ""]` yields a
result identical to composing with the empty caption list (in this code
both are rejected with the site-name-required error rather than
producing an image), and an empty caption entry contributes zero
wrapped lines. -/
theorem compose_blank_pair_eq_empty (env : Env) (payload u : String) :
    composeWithCaptions env payload ["", ""] u
      = composeWithCaptions env payload [] u ∧
    (∀ (widthF : String → Int) (mw : Int), wrap_text widthF "" mw = []) :=
  ⟨rfl, fun _ _ => rfl⟩

/-- Counterexample to C2 as stated: composing a non-empty payload
(within capacity) with the empty caption list does not succeed — the
handler rejects the request because the site name is a required field. -/
theorem compose_empty_captions_rejected_cex :
    composeWithCaptions envTest "https://x" [] "u"
      = .error .siteNameRequired := rfl

/-- C2 (amended): for every payload that is non-blank after stripping
and within the symbol capacity, and a non-blank first caption entry
(the site name, which the handler requires), composition succeeds and
the returned image has height at least the symbol height plus the 60px
caption floor. -/
theorem gq_success_height (env : Env) (sn sl r u : String) (qw qh : Int)
    (hname : pyStrip sn ≠ "") (hurl : pyStrip r ≠ "")
    (henc : env.encode (pyStrip r) = .ok (qw, qh)) :
    ∃ img id, generate_qr env sn sl r u = .ok (img, id) ∧ qh + 60 ≤ img.h := by
  refine ⟨gqLayout env (pyStrip sn) (pyStrip sl) (pyStrip r) qw qh,
    "site_" ++ u.take 8, ?_, ?_⟩
  · simp only [generate_qr]
    rw [if_neg hname, if_neg hurl, henc]
  · show qh + 60 ≤ (gqLayout env (pyStrip sn) (pyStrip sl) (pyStrip r) qw qh).h
    simp only [gqLayout]
    exact add_le_add_left (le_max_left 60 _) qh

/-- Witness for C2 (amended): a concrete succeeding composition whose
image height is at least `290 + 60`. -/
theorem gq_success_height_witness :
    pyStrip "Warehouse" ≠ "" ∧ pyStrip "https://x" ≠ "" ∧
    envTest.encode (pyStrip "https://x") = .ok (290, 290) ∧
    ∃ img id, generate_qr envTest "Warehouse" "" "https://x" "u"
      = .ok (img, id) ∧ 290 + 60 ≤ img.h :=
  ⟨by decide, by decide, rfl,
   gq_success_height envTest "Warehouse" "" "https://x" "u" 290 290
     (by decide) (by decide) rfl⟩

/-- Counterexample to C1 as stated: in an environment with 60px-tall
glyphs, a one-line caption and an empty second entry, `generate_qr`
produces a canvas of height 370, while the claimed formula — top
padding + lines × (line height + inter-line gap) + bottom padding,
floored at 60 and added to the 290px symbol height — gives 376:
`generate_qr` counts only the line height per wrapped line, without the
6px inter-line gap (app.py lines 909-913). -/
theorem caption_height_formula_cex :
    (generate_qr envCex "hello" "" "https://x" "u").map (fun p => p.1.h)
      = .ok 370 ∧
    (290 : Int) + max 60 (specCaptionBlockHeight 10 60 6 12 10 1 0 False)
      ≠ 370 := ⟨by decide, by decide⟩

/-- C1 (amended): the final canvas height is the symbol height plus
`max 60` of the computed caption height in both handlers, but the two
handlers compute that caption height differently: `generate_qr` counts
each wrapped line at `line height` only (the spec formula with
inter-line gap 0), while `create_site` counts each wrapped line at
`line height + 6px inter-line gap` (the spec formula as written, with
its `(bbox height) or 16` line-height fallback); both add the 12px
inter-block gap only when both caption entries produce lines. -/
theorem caption_height_formulas (env : Env) (sn sl r : String) (qw qh : Int) :
    (gqLayout env sn sl r qw qh).h
      = qh + max 60 (specCaptionBlockHeight 10
          ((env.textbbox (resolveFont env.fontLoads) "Ag").y1
            - (env.textbbox (resolveFont env.fontLoads) "Ag").y0)
          0 12 10
          (wrap_text (fun s => (env.textbbox (resolveFont env.fontLoads) s).width)
            sn (qw - 20)).length
          (wrap_text (fun s => (env.textbbox (resolveFont env.fontLoads) s).width)
            sl (qw - 20)).length
          (wrap_text (fun s => (env.textbbox (resolveFont env.fontLoads) s).width)
              sn (qw - 20) ≠ [] ∧
            wrap_text (fun s => (env.textbbox (resolveFont env.fontLoads) s).width)
              sl (qw - 20) ≠ [])) ∧
    (csLayout env sn sl r qw qh).h
      = qh + max 60 (specCaptionBlockHeight 10
          (if (env.textbbox (resolveFont env.fontLoads) "Ag").y1
                - (env.textbbox (resolveFont env.fontLoads) "Ag").y0 = 0
            then 16
            else (env.textbbox (resolveFont env.fontLoads) "Ag").y1
                - (env.textbbox (resolveFont env.fontLoads) "Ag").y0)
          6 12 10
          (wrap_text_cs (fun s => (env.textbbox (resolveFont env.fontLoads) s).width)
            sn (qw - 20)).length
          (wrap_text_cs (fun s => (env.textbbox (resolveFont env.fontLoads) s).width)
            sl (qw - 20)).length
          (wrap_text_cs (fun s => (env.textbbox (resolveFont env.fontLoads) s).width)
              sn (qw - 20) ≠ [] ∧
            wrap_text_cs (fun s => (env.textbbox (resolveFont env.fontLoads) s).width)
              sl (qw - 20) ≠ [])) := by
  constructor
  · simp only [gqLayout, specCaptionBlockHeight]
    by_cases hb : (wrap_text (fun s => (env.textbbox (resolveFont env.fontLoads) s).width)
        sn (qw - 20) ≠ [] ∧
      wrap_text (fun s => (env.textbbox (resolveFont env.fontLoads) s).width)
        sl (qw - 20) ≠ [])
    · rw [if_pos hb, if_pos hb]
      ring_nf
    · rw [if_neg hb, if_neg hb]
      ring_nf
  · simp only [csLayout, specCaptionBlockHeight]
    by_cases hb : (wrap_text_cs (fun s => (env.textbbox (resolveFont env.fontLoads) s).width)
        sn (qw - 20) ≠ [] ∧
      wrap_text_cs (fun s => (env.textbbox (resolveFont env.fontLoads) s).width)
        sl (qw - 20) ≠ [])
    · rw [if_pos hb, if_pos hb]
    · rw [if_neg hb, if_neg hb]


theorem joinSpace_cons_data (w w' : String) (ws : List String) :
    (joinSpace (w :: w' :: ws)).data
      = w.data ++ spaceChar :: (joinSpace (w' :: ws)).data := by
  show (w ++ String.mk [spaceChar] ++ joinSpace (w' :: ws)).data = _
  rw [String.data_append, String.data_append]
  simp

theorem joinSpace_head : ∀ (ws : List String), (∀ w ∈ ws, WfWord w) → ws ≠ [] →
    ∃ c, (joinSpace ws).data.head? = some c ∧ c.isWhitespace = false
  | [], _, hne => absurd rfl hne
  | [w], h, _ => by
    have hw := h w (List.mem_singleton_self w)
    show ∃ c, w.data.head? = some c ∧ c.isWhitespace = false
    cases hd : w.data with
    | nil => exact absurd hd hw.1
    | cons c t => exact ⟨c, rfl, hw.2 c (by rw [hd]; exact List.mem_cons_self c t)⟩
  | w :: w' :: ws, h, _ => by
    have hw := h w (List.mem_cons_self w _)
    rw [joinSpace_cons_data]
    cases hd : w.data with
    | nil => exact absurd hd hw.1
    | cons c t =>
      exact ⟨c, rfl, hw.2 c (by rw [hd]; exact List.mem_cons_self c t)⟩

theorem joinSpace_getLast : ∀ (ws : List String), (∀ w ∈ ws, WfWord w) → ws ≠ [] →
    ∃ c, (joinSpace ws).data.getLast? = some c ∧ c.isWhitespace = false
  | [], _, hne => absurd rfl hne
  | [w], h, _ => by
    have hw := h w (List.mem_singleton_self w)
    show ∃ c, w.data.getLast? = some c ∧ c.isWhitespace = false
    refine ⟨w.data.getLast hw.1, List.getLast?_eq_getLast w.data hw.1, ?_⟩
    exact hw.2 _ (List.getLast_mem hw.1)
  | w :: w' :: ws, h, _ => by
    obtain ⟨c, hc, hcw⟩ := joinSpace_getLast (w' :: ws)
      (fun x hx => h x (List.mem_cons_of_mem w hx)) (by simp)
    rw [joinSpace_cons_data]
    refine ⟨c, ?_, hcw⟩
    rw [show w.data ++ spaceChar :: (joinSpace (w' :: ws)).data
          = w.data ++ [spaceChar] ++ (joinSpace (w' :: ws)).data by simp,
        List.getLast?_append, hc]
    rfl

theorem dropWhile_eq_self_of_head (p : Char → Bool) :
    ∀ l : List Char, (∀ c, l.head? = some c → p c = false) → l.dropWhile p = l
  | [], _ => rfl
  | c :: t, h => by
    rw [List.dropWhile_cons, h c rfl]
    simp

theorem stripChars_eq_self (l : List Char)
    (hh : ∀ c, l.head? = some c → c.isWhitespace = false)
    (hl : ∀ c, l.getLast? = some c → c.isWhitespace = false) :
    stripChars l = l := by
  unfold stripChars
  rw [dropWhile_eq_self_of_head _ l hh,
      dropWhile_eq_self_of_head _ l.reverse
        (fun c hc => hl c (by rwa [List.head?_reverse] at hc)),
      List.reverse_reverse]

theorem pyStrip_joinSpace (ws : List String) (h : ∀ w ∈ ws, WfWord w)
    (hne : ws ≠ []) : pyStrip (joinSpace ws) = joinSpace ws := by
  obtain ⟨c1, hc1, hw1⟩ := joinSpace_head ws h hne
  obtain ⟨c2, hc2, hw2⟩ := joinSpace_getLast ws h hne
  show String.mk (stripChars (joinSpace ws).data) = joinSpace ws
  rw [stripChars_eq_self _
    (fun c hc => by rw [hc1] at hc; cases hc; exact hw1)
    (fun c hc => by rw [hc2] at hc; cases hc; exact hw2)]

theorem splitWordsAux_append_word :
    ∀ (w : List Char) (cs : List Char) (cur : List Char),
      (∀ c ∈ w, c.isWhitespace = false) →
      splitWordsAux (w ++ cs) cur = splitWordsAux cs (w.reverse ++ cur)
  | [], cs, cur, _ => by simp
  | c :: t, cs, cur, h => by
    rw [List.cons_append]
    simp only [splitWordsAux, h c (List.mem_cons_self c t), Bool.false_eq_true,
      if_false]
    rw [splitWordsAux_append_word t cs (c :: cur)
      (fun d hd => h d (List.mem_cons_of_mem c hd))]
    simp

theorem splitWordsAux_space (cs cur : List Char) (h : cur ≠ []) :
    splitWordsAux (spaceChar :: cs) cur = cur.reverse :: splitWordsAux cs [] := by
  simp [splitWordsAux, show spaceChar.isWhitespace = true from by decide, h]

theorem splitWordsAux_join : ∀ (ws : List String), (∀ w ∈ ws, WfWord w) →
    splitWordsAux (joinSpace ws).data [] = ws.map String.data
  | [], _ => rfl
  | [w], h => by
    have hw := h w (List.mem_singleton_self w)
    show splitWordsAux w.data [] = [w.data]
    rw [show w.data = w.data ++ [] from (List.append_nil _).symm,
      splitWordsAux_append_word w.data [] [] hw.2]
    simp only [splitWordsAux]
    rw [if_neg (by simp [hw.1])]
    simp
  | w :: w' :: ws, h => by
    have hw := h w (List.mem_cons_self w _)
    rw [joinSpace_cons_data,
      splitWordsAux_append_word w.data _ [] hw.2,
      splitWordsAux_space _ _ (by simp [hw.1]),
      splitWordsAux_join (w' :: ws) (fun x hx => h x (List.mem_cons_of_mem w hx))]
    simp

theorem splitWords_joinSpace (ws : List String) (h : ∀ w ∈ ws, WfWord w) :
    splitWords (joinSpace ws) = ws := by
  show ((splitWordsAux (joinSpace ws).data []).map String.mk) = ws
  rw [splitWordsAux_join ws h, List.map_map]
  exact List.map_id'' (fun w => rfl) ws

theorem splitWordsAux_wf : ∀ (cs cur : List Char),
    (∀ c ∈ cur, c.isWhitespace = false) →
    ∀ w ∈ splitWordsAux cs cur, w ≠ [] ∧ ∀ c ∈ w, c.isWhitespace = false
  | [], cur, h => by
    simp only [splitWordsAux]
    split_ifs with hc
    · intro w hw
      exact absurd hw (List.not_mem_nil w)
    · intro w hw
      rw [List.mem_singleton] at hw
      subst hw
      exact ⟨by simp [hc], fun c hcc => h c (List.mem_reverse.mp hcc)⟩
  | c :: cs, cur, h => by
    simp only [splitWordsAux]
    split_ifs with hws hc
    · exact splitWordsAux_wf cs [] (by intro d hd; cases hd)
    · intro w hw
      rcases List.mem_cons.mp hw with hw | hw
      · subst hw
        exact ⟨by simp [hc], fun d hd => h d (List.mem_reverse.mp hd)⟩
      · exact splitWordsAux_wf cs [] (by intro d hd; cases hd) w hw
    · refine splitWordsAux_wf cs (c :: cur) ?_
      intro d hd
      rcases List.mem_cons.mp hd with hd | hd
      · subst hd
        simpa using hws
      · exact h d hd

theorem splitWords_wf (s : String) : ∀ w ∈ splitWords s, WfWord w := by
  intro w hw
  obtain ⟨chunk, hchunk, rfl⟩ := List.mem_map.mp hw
  have := splitWordsAux_wf s.toList [] (by intro d hd; cases hd) chunk hchunk
  exact ⟨this.1, this.2⟩

theorem splitWords_single (w : String) (h : WfWord w) : splitWords w = [w] := by
  show ((splitWordsAux w.toList []).map String.mk) = [w]
  rw [show w.toList = w.data ++ [] from (List.append_nil _).symm,
    splitWordsAux_append_word w.data [] [] h.2]
  simp only [splitWordsAux]
  rw [if_neg (by simp [h.1])]
  simp

theorem wrapLoop_flatten (widthF : String → Int) (mw : Int) :
    ∀ (ws lines cur : List String),
      (∀ w ∈ ws, WfWord w) → (∀ w ∈ cur, WfWord w) →
      ((wrapLoop widthF mw lines cur ws).map splitWords).flatten
        = ((lines.map splitWords).flatten) ++ cur ++ ws
  | [], lines, cur, _, hcur => by
    rw [wrapLoop]
    split_ifs with hc
    · simp [hc]
    · simp [splitWords_joinSpace cur hcur]
  | w :: ws, lines, cur, hws, hcur => by
    simp only [wrapLoop]
    split_ifs with hc
    · rw [wrapLoop_flatten widthF mw ws lines (cur ++ [w])
        (fun x hx => hws x (List.mem_cons_of_mem w hx))
        (by
          intro x hx
          rcases List.mem_append.mp hx with hx | hx
          · exact hcur x hx
          · rw [List.mem_singleton] at hx
            subst hx
            exact hws x (List.mem_cons_self x ws))]
      simp
    · have hcne : cur ≠ [] := by
        intro hnil
        exact hc (Or.inr hnil)
      rw [wrapLoop_flatten widthF mw ws (lines ++ [joinSpace cur]) [w]
        (fun x hx => hws x (List.mem_cons_of_mem w hx))
        (by
          intro x hx
          rw [List.mem_singleton] at hx
          subst hx
          exact hws x (List.mem_cons_self x ws))]
      simp [splitWords_joinSpace cur hcur]

/-- C9: the word-wrap routine preserves the input's words exactly:
splitting each returned line back into words and concatenating yields
precisely the whitespace-separated word sequence of the input, in
order — no word dropped, duplicated, reordered, truncated or split. -/
theorem wrap_text_preserves_words (widthF : String → Int) (text : String)
    (mw : Int) :
    ((wrap_text widthF text mw).map splitWords).flatten = splitWords text := by
  unfold wrap_text
  split_ifs with he
  · rw [(String.isEmpty_iff text).mp he]
    rfl
  · rw [wrapLoop_flatten widthF mw (splitWords text) [] []
      (splitWords_wf text) (by intro x hx; cases hx)]
    rfl

theorem wrapLoop_width (widthF : String → Int) (mw : Int) (allW : List String) :
    ∀ (ws lines cur : List String),
      (∀ w ∈ ws, WfWord w) → (∀ w ∈ cur, WfWord w) →
      (∀ w ∈ ws, w ∈ allW) → (∀ w ∈ cur, w ∈ allW) →
      (∀ l ∈ lines, widthF l ≤ mw ∨ l ∈ allW) →
      (cur = [] ∨ (∃ w, cur = [w]) ∨ widthF (joinSpace cur) ≤ mw) →
      ∀ l ∈ wrapLoop widthF mw lines cur ws, widthF l ≤ mw ∨ l ∈ allW
  | [], lines, cur, _, hcur, _, hcurA, hlines, hinv => by
    rw [wrapLoop]
    split_ifs with hc
    · exact hlines
    · intro l hl
      rcases List.mem_append.mp hl with hl | hl
      · exact hlines l hl
      · rw [List.mem_singleton] at hl
        subst hl
        rcases hinv with hnil | ⟨w, hw⟩ | hle
        · exact absurd hnil hc
        · subst hw
          exact Or.inr (hcurA w (List.mem_singleton_self w))
        · exact Or.inl hle
  | w :: ws, lines, cur, hws, hcur, hwsA, hcurA, hlines, hinv => by
    simp only [wrapLoop]
    have hwWf : WfWord w := hws w (List.mem_cons_self w ws)
    have hwA : w ∈ allW := hwsA w (List.mem_cons_self w ws)
    split_ifs with hc
    · refine wrapLoop_width widthF mw allW ws lines (cur ++ [w])
        (fun x hx => hws x (List.mem_cons_of_mem w hx))
        (by
          intro x hx
          rcases List.mem_append.mp hx with hx | hx
          · exact hcur x hx
          · rw [List.mem_singleton] at hx
            subst hx
            exact hwWf)
        (fun x hx => hwsA x (List.mem_cons_of_mem w hx))
        (by
          intro x hx
          rcases List.mem_append.mp hx with hx | hx
          · exact hcurA x hx
          · rw [List.mem_singleton] at hx
            subst hx
            exact hwA)
        hlines ?_
      by_cases hle : widthF (pyStrip (joinSpace (cur ++ [w]))) ≤ mw
      · refine Or.inr (Or.inr ?_)
        rwa [pyStrip_joinSpace (cur ++ [w])
          (by
            intro x hx
            rcases List.mem_append.mp hx with hx | hx
            · exact hcur x hx
            · rw [List.mem_singleton] at hx
              subst hx
              exact hwWf)
          (by simp)] at hle
      · have hcnil : cur = [] := by
          rcases hc with hc | hc
          · exact absurd hc hle
          · exact hc
        subst hcnil
        exact Or.inr (Or.inl ⟨w, rfl⟩)
    · have hcne : cur ≠ [] := fun hnil => hc (Or.inr hnil)
      refine wrapLoop_width widthF mw allW ws (lines ++ [joinSpace cur]) [w]
        (fun x hx => hws x (List.mem_cons_of_mem w hx))
        (by
          intro x hx
          rw [List.mem_singleton] at hx
          subst hx
          exact hwWf)
        (fun x hx => hwsA x (List.mem_cons_of_mem w hx))
        (by
          intro x hx
          rw [List.mem_singleton] at hx
          subst hx
          exact hwA)
        (by
          intro l hl
          rcases List.mem_append.mp hl with hl | hl
          · exact hlines l hl
          · rw [List.mem_singleton] at hl
            subst hl
            rcases hinv with hnil | ⟨x, hx⟩ | hle
            · exact absurd hnil hcne
            · subst hx
              exact Or.inr (hcurA x (List.mem_singleton_self x))
            · exact Or.inl hle)
        (Or.inr (Or.inl ⟨w, rfl⟩))

/-- C3: no line produced by the word-wrap routine measures wider than
the maximum width, except a line consisting of a single word of the
input that alone exceeds the maximum width and occupies its own line
unmodified (it is itself one whole input word, never truncated or
split). -/
theorem wrap_text_width_bound (widthF : String → Int) (text : String)
    (mw : Int) (l : String) (hl : l ∈ wrap_text widthF text mw) :
    widthF l ≤ mw ∨ (l ∈ splitWords text ∧ splitWords l = [l]) := by
  unfold wrap_text at hl
  split_ifs at hl with he
  · exact absurd hl (List.not_mem_nil l)
  · rcases wrapLoop_width widthF mw (splitWords text) (splitWords text) [] []
      (splitWords_wf text) (by intro x hx; cases hx)
      (fun x hx => hx) (by intro x hx; cases hx)
      (by intro x hx; cases hx) (Or.inl rfl) l hl with hle | hmem
    · exact Or.inl hle
    · exact Or.inr ⟨hmem, splitWords_single l (splitWords_wf text l hmem)⟩

/-- Witness for C3: a concrete wrap where the single produced line is
within the maximum width. -/
theorem wrap_text_width_bound_witness :
    ("hello world" ∈ wrap_text (fun s => 7 * (s.length : Int)) "hello world" 100) ∧
    (7 * (("hello world" : String).length : Int) ≤ 100 ∨
      ("hello world" ∈ splitWords "hello world" ∧
        splitWords "hello world" = ["hello world"])) :=
  ⟨by decide,
   wrap_text_width_bound (fun s => 7 * (s.length : Int)) "hello world" 100
     "hello world" (by decide)⟩

theorem drawCenteredLines_eq (widthF : String → Int) (qrW lh gap : Int) :
    ∀ (lines : List String) (ops : List DrawOp) (y : Int),
      drawCenteredLines widthF qrW lh gap (ops, y) lines
        = (ops ++ centeredOps widthF qrW lh gap y lines,
           y + (lines.length : Int) * (lh + gap))
  | [], ops, y => by simp [drawCenteredLines, centeredOps]
  | line :: rest, ops, y => by
    rw [drawCenteredLines, centeredOps,
      drawCenteredLines_eq widthF qrW lh gap rest (ops ++ [DrawOp.text (max 10 ((qrW - widthF line).fdiv 2)) y line]) (y + lh + gap)]
    refine Prod.ext ?_ ?_
    · simp
    · show y + lh + gap + (rest.length : Int) * (lh + gap)
        = y + ((rest.length : Int) + 1) * (lh + gap)
      ring

theorem blockOps (widthF : String → Int) (qrW lh gap y0 : Int)
    (ls : List String) :
    (if ls ≠ [] then drawCenteredLines widthF qrW lh gap ([], y0) ls
      else ([], y0)).1
      = centeredOps widthF qrW lh gap y0 ls := by
  split_ifs with h
  · rw [drawCenteredLines_eq]
    simp
  · rw [not_ne_iff.mp h]
    rfl

theorem blockCursor (widthF : String → Int) (qrW lh gap y0 : Int)
    (ls : List String) :
    (if ls ≠ [] then drawCenteredLines widthF qrW lh gap ([], y0) ls
      else ([], y0)).2
      = y0 + (ls.length : Int) * (lh + gap) := by
  split_ifs with h
  · rw [drawCenteredLines_eq]
  · rw [not_ne_iff.mp h]
    simp

/-- C8: in both handlers every wrapped sub-line is drawn at horizontal
position `max(10, (W - lineWidth) // 2)` — the centering offset clamped
below at the 10px left inset — and the vertical cursor advances by
`line height + 6px inter-line gap` after each sub-line (this is the
closed form `centeredOps`); between the two caption blocks an extra
6px advance occurs only when both entries produced lines, so that the
separation between the last name line and the first location line is
`line height + 12px` — the full inter-block gap — instead of
`line height + 6px`. -/
theorem draw_positions (env : Env) (sn sl r : String) (qw qh : Int) :
    (gqLayout env sn sl r qw qh).ops
      = DrawOp.pasteQR r 0 0 ::
        (centeredOps (fun s => (env.textbbox (resolveFont env.fontLoads) s).width)
          qw ((env.textbbox (resolveFont env.fontLoads) "Ag").y1
              - (env.textbbox (resolveFont env.fontLoads) "Ag").y0) 6
          (qh + 10)
          (wrap_text (fun s => (env.textbbox (resolveFont env.fontLoads) s).width)
            sn (qw - 20)) ++
         centeredOps (fun s => (env.textbbox (resolveFont env.fontLoads) s).width)
          qw ((env.textbbox (resolveFont env.fontLoads) "Ag").y1
              - (env.textbbox (resolveFont env.fontLoads) "Ag").y0) 6
          (qh + 10 +
            ((wrap_text (fun s => (env.textbbox (resolveFont env.fontLoads) s).width)
              sn (qw - 20)).length : Int) *
              (((env.textbbox (resolveFont env.fontLoads) "Ag").y1
                - (env.textbbox (resolveFont env.fontLoads) "Ag").y0) + 6) +
            (if wrap_text (fun s => (env.textbbox (resolveFont env.fontLoads) s).width)
                  sn (qw - 20) ≠ [] ∧
                wrap_text (fun s => (env.textbbox (resolveFont env.fontLoads) s).width)
                  sl (qw - 20) ≠ []
              then 6 else 0))
          (wrap_text (fun s => (env.textbbox (resolveFont env.fontLoads) s).width)
            sl (qw - 20))) ∧
    (csLayout env sn sl r qw qh).ops
      = DrawOp.pasteQR r 0 0 ::
        (centeredOps (fun s => (env.textbbox (resolveFont env.fontLoads) s).width)
          qw (if (env.textbbox (resolveFont env.fontLoads) "Ag").y1
                - (env.textbbox (resolveFont env.fontLoads) "Ag").y0 = 0
              then 16
              else (env.textbbox (resolveFont env.fontLoads) "Ag").y1
                - (env.textbbox (resolveFont env.fontLoads) "Ag").y0) 6
          (qh + 10)
          (wrap_text_cs (fun s => (env.textbbox (resolveFont env.fontLoads) s).width)
            sn (qw - 20)) ++
         centeredOps (fun s => (env.textbbox (resolveFont env.fontLoads) s).width)
          qw (if (env.textbbox (resolveFont env.fontLoads) "Ag").y1
                - (env.textbbox (resolveFont env.fontLoads) "Ag").y0 = 0
              then 16
              else (env.textbbox (resolveFont env.fontLoads) "Ag").y1
                - (env.textbbox (resolveFont env.fontLoads) "Ag").y0) 6
          (qh + 10 +
            ((wrap_text_cs (fun s => (env.textbbox (resolveFont env.fontLoads) s).width)
              sn (qw - 20)).length : Int) *
              ((if (env.textbbox (resolveFont env.fontLoads) "Ag").y1
                    - (env.textbbox (resolveFont env.fontLoads) "Ag").y0 = 0
                  then 16
                  else (env.textbbox (resolveFont env.fontLoads) "Ag").y1
                    - (env.textbbox (resolveFont env.fontLoads) "Ag").y0) + 6) +
            (if wrap_text_cs (fun s => (env.textbbox (resolveFont env.fontLoads) s).width)
                  sn (qw - 20) ≠ [] ∧
                wrap_text_cs (fun s => (env.textbbox (resolveFont env.fontLoads) s).width)
                  sl (qw - 20) ≠ []
              then 6 else 0))
          (wrap_text_cs (fun s => (env.textbbox (resolveFont env.fontLoads) s).width)
            sl (qw - 20))) := by
  constructor
  · simp only [gqLayout]
    rw [blockOps, blockOps, blockCursor]
    by_cases hb : (wrap_text (fun s => (env.textbbox (resolveFont env.fontLoads) s).width)
        sn (qw - 20) ≠ [] ∧
      wrap_text (fun s => (env.textbbox (resolveFont env.fontLoads) s).width)
        sl (qw - 20) ≠ [])
    · rw [if_pos hb, if_pos hb, if_pos hb]
      norm_num
    · rw [if_neg hb, if_neg hb]
  · simp only [csLayout]
    rw [blockOps, blockOps, blockCursor]
    by_cases hb : (wrap_text_cs (fun s => (env.textbbox (resolveFont env.fontLoads) s).width)
        sn (qw - 20) ≠ [] ∧
      wrap_text_cs (fun s => (env.textbbox (resolveFont env.fontLoads) s).width)
        sl (qw - 20) ≠ [])
    · rw [if_pos hb, if_pos hb, if_pos hb]
      norm_num
    · rw [if_neg hb, if_neg hb]
